import Mathlib

/-!
Shallow embedding of `src/app/main.py` of the MongoUserAPI repository
(FastAPI + Motor/MongoDB user CRUD service).

The embedding models:
  * the bson `ObjectId` identifier type (12 bytes, 24-hex-char string form),
    including the string validation performed by `ObjectId.is_valid` /
    `ObjectId(str)`: a string of length exactly 24 decoded by
    `bytes.fromhex`, which accepts hex digits of either case and skips
    ASCII whitespace between byte pairs, with no check that the decoded
    value has 12 bytes;
  * the pydantic models `UserCreate`, `UserUpdate`, `UserInDB` and the
    field constraints declared on them (`Field(min_length=3, max_length=50)`
    on `name`; the `EmailStr` grammar is not modelled because no verified
    property depends on the email syntax — `email` is carried as a plain
    string);
  * the MongoDB collection `db.users` as a list of records in insertion
    order, with `find_one` returning the first match, `insert_one`
    appending (and raising `DuplicateKeyError` on an `_id` collision,
    which FastAPI surfaces as HTTP 500), `update_one` applying a `$set`
    to the first matched document, and `delete_one` removing the first
    matched document;
  * the four user route handlers `create_user`, `get_user`, `update_user`,
    `delete_user`. Each endpoint function also returns the list of store
    operations it issued, so that "no store call is made" is statable.
    FastAPI runs pydantic body validation before the handler body and
    answers HTTP 422 (`RequestValidationError`) on violation; that gate is
    the first step of `create_user` and `update_user`.
-/

namespace MongoUserAPI

/-- Calendar date (python `datetime.date`), as validated by pydantic's
`date` field type.  Only its identity matters to the verified claims, so it
is a plain year/month/day triple. -/
structure Date where
  year : Nat
  month : Nat
  day : Nat
deriving DecidableEq

/-! ## The bson ObjectId type (`bson.ObjectId`, used via `PyObjectId`) -/

/-- A bson ObjectId: the 12-byte value held in `ObjectId.__id`.  Bytes are
naturals; well-formedness (`ObjectId.wf`) records the 12-byte, per-byte
`< 256` shape. -/
structure ObjectId where
  bytes : List Nat
deriving DecidableEq

/-- Well-formed ObjectId: exactly 12 bytes, each an actual byte value. -/
def ObjectId.wf (o : ObjectId) : Prop :=
  o.bytes.length = 12 ∧ ∀ b ∈ o.bytes, b < 256

instance (o : ObjectId) : Decidable o.wf := by
  unfold ObjectId.wf; infer_instance

/-- Value of one hex digit, as accepted by python's `bytes.fromhex`
(which `ObjectId.__init__` uses to decode a 24-char string): digits and
letters of either case. -/
def hexDigitVal (c : Char) : Option Nat :=
  if '0' ≤ c ∧ c ≤ '9' then some (c.toNat - '0'.toNat)
  else if 'a' ≤ c ∧ c ≤ 'f' then some (c.toNat - 'a'.toNat + 10)
  else if 'A' ≤ c ∧ c ≤ 'F' then some (c.toNat - 'A'.toNat + 10)
  else none

/-- Lowercase hex digit for a value `< 16`, as produced by
`binascii.hexlify` (used by `ObjectId.__str__`). -/
def hexChar : Nat → Char
  | 0 => '0' | 1 => '1' | 2 => '2' | 3 => '3'
  | 4 => '4' | 5 => '5' | 6 => '6' | 7 => '7'
  | 8 => '8' | 9 => '9' | 10 => 'a' | 11 => 'b'
  | 12 => 'c' | 13 => 'd' | 14 => 'e' | _ => 'f'

/-- Two lowercase hex characters per byte, in order: `binascii.hexlify`. -/
def bytesToHexChars : List Nat → List Char
  | [] => []
  | b :: bs => hexChar (b / 16) :: hexChar (b % 16) :: bytesToHexChars bs

/-- ASCII whitespace as tested by `Py_ISSPACE`, which `bytes.fromhex`
skips over between byte pairs. -/
def isPySpace (c : Char) : Bool :=
  c = ' ' || c = '\t' || c = '\n' || c = '\x0b' || c = '\x0c' || c = '\r'

/-- `bytes.fromhex`: the string is consumed as two-hex-digit byte pairs;
ASCII whitespace may appear before, between and after the pairs (it is
skipped), but the two digits of one pair must be adjacent; an odd
dangling digit or any other character fails. -/
def fromhex : List Char → Option (List Nat)
  | [] => some []
  | [c] => if isPySpace c then some [] else none
  | c1 :: c2 :: cs =>
    if isPySpace c1 then fromhex (c2 :: cs)
    else
      match hexDigitVal c1, hexDigitVal c2, fromhex cs with
      | some h, some l, some bs => some ((16 * h + l) :: bs)
      | _, _, _ => none

/-- `str(ObjectId)`: lowercase hex rendering of the 12 id bytes
(`binascii.hexlify(self.__id).decode()`). -/
def ObjectId.toHex (o : ObjectId) : String :=
  ⟨bytesToHexChars o.bytes⟩

/-- `ObjectId(user_id)` on a string, also the substance of
`ObjectId.is_valid`: the string must have length exactly 24 and decode
via `bytes.fromhex`; either case of hex letter is accepted, interleaved
ASCII whitespace is skipped, and bson applies no 12-byte check to the
decoded result. -/
def ObjectId.ofHex (s : String) : Option ObjectId :=
  if s.length = 24 then (fromhex s.data).map ObjectId.mk else none

/-! ## Pydantic models -/

/-- `UserCreate` (= `UserBase`): the POST body.  `name : str`,
`email : EmailStr`, `birth_date : date`, all required.  The email grammar
is not modelled; `email` is the validated string. -/
structure UserCreate where
  name : String
  email : String
  birth_date : Date
deriving DecidableEq

/-- `UserUpdate`: the PUT body; every field optional (`None` = absent). -/
structure UserUpdate where
  name : Option String
  email : Option String
  birth_date : Option Date
deriving DecidableEq

/-- A document of the `db.users` collection, as rendered by `UserInDB`:
the `_id` plus the `UserBase` fields. -/
structure UserRec where
  id : ObjectId
  name : String
  email : String
  birth_date : Date
deriving DecidableEq

/-- The `Field(min_length=3, max_length=50)` constraint pydantic checks on
`name`: the raw character count of the string, with no trimming. -/
def validName (s : String) : Bool :=
  3 ≤ s.length && s.length ≤ 50

/-- Pydantic body validation for `UserCreate` (the `name` constraint; the
other two fields are well-typed by construction in this model). -/
def UserCreate.valid (u : UserCreate) : Bool :=
  validName u.name

/-- Pydantic body validation for `UserUpdate`: the `name` constraint
applies only when `name` is present. -/
def UserUpdate.valid (u : UserUpdate) : Bool :=
  match u.name with
  | some n => validName n
  | none => true

/-- `user_update.model_dump(exclude_none=True)` is empty exactly when all
three optional fields are absent (`if not update_data`). -/
def UserUpdate.isEmpty (u : UserUpdate) : Bool :=
  u.name.isNone && u.email.isNone && u.birth_date.isNone

/-! ## The MongoDB collection -/

/-- The `db.users` collection: documents in insertion (natural) order. -/
abbrev Store := List UserRec

/-- `db.users.find_one({"email": e})`: first document with that email. -/
def findOneEmail (st : Store) (e : String) : Option UserRec :=
  st.find? (fun r => r.email = e)

/-- `db.users.find_one({"_id": oid})`: first document with that id. -/
def findOneId (st : Store) (oid : ObjectId) : Option UserRec :=
  st.find? (fun r => r.id = oid)

/-- `{"$set": update_data}` applied to one document: each present field of
the `UserUpdate` overwrites the document's field; absent fields and `_id`
are untouched. -/
def applyUpdate (r : UserRec) (u : UserUpdate) : UserRec :=
  { r with
    name := u.name.getD r.name
    email := u.email.getD r.email
    birth_date := u.birth_date.getD r.birth_date }

/-- `db.users.update_one({"_id": oid}, {"$set": u})`: applies the `$set`
to the first matched document; yields `matched_count` and the collection
afterwards. -/
def updateOne : Store → ObjectId → UserUpdate → Nat × Store
  | [], _, _ => (0, [])
  | r :: rest, oid, u =>
    if r.id = oid then (1, applyUpdate r u :: rest)
    else ((updateOne rest oid u).1, r :: (updateOne rest oid u).2)

/-- `db.users.delete_one({"_id": oid})`: removes the first matched
document; yields `deleted_count` and the collection afterwards. -/
def deleteOne : Store → ObjectId → Nat × Store
  | [], _ => (0, [])
  | r :: rest, oid =>
    if r.id = oid then (1, rest)
    else ((deleteOne rest oid).1, r :: (deleteOne rest oid).2)

/-! ## Endpoint responses and store-operation traces -/

/-- Outcome of one request, as FastAPI sends it. -/
inductive Resp
  | ok (u : UserRec)
  | created (u : UserRec)
  | noContent
  | validationErr (field : String)
  | badRequest (detail : String)
  | notFound
  | internalErr
deriving DecidableEq

/-- HTTP status code of a response.  Pydantic body-validation failures are
answered by FastAPI's `RequestValidationError` handler with 422; the
handlers raise `HTTPException` 400/404 explicitly; unhandled exceptions
(`DuplicateKeyError`) and the explicit `raise HTTPException(500, ...)`
give 500. -/
def Resp.status : Resp → Nat
  | .ok _ => 200
  | .created _ => 201
  | .noContent => 204
  | .validationErr _ => 422
  | .badRequest _ => 400
  | .notFound => 404
  | .internalErr => 500

/-- One operation issued against the `db.users` collection. -/
inductive StoreOp
  | findEmail (e : String)
  | findId (oid : ObjectId)
  | insert (r : UserRec)
  | update (oid : ObjectId) (u : UserUpdate)
  | delete (oid : ObjectId)
deriving DecidableEq

/-! ## Route handlers

Each endpoint returns the response, the collection after the request, and
the trace of store operations issued during the request. -/

/-- `POST /users/` (lines 125–144).  FastAPI first validates the
`UserCreate` body (422 on violation, before the handler body runs); the
handler then checks email uniqueness, inserts (the client driver
generates the new `_id`, here the `genId` argument; a duplicate `_id`
raises `DuplicateKeyError`, surfaced as 500 with the insert rejected),
re-fetches by the inserted id and returns 201, or 500 if the re-fetch
misses. -/
def create_user (st : Store) (genId : ObjectId) (user : UserCreate) :
    Resp × Store × List StoreOp :=
  if user.valid then
    match findOneEmail st user.email with
    | some _ =>
      (.badRequest "Já existe um usuário com este e-mail.", st,
        [.findEmail user.email])
    | none =>
      if st.any (fun r => r.id = genId) then
        (.internalErr, st,
          [.findEmail user.email,
           .insert ⟨genId, user.name, user.email, user.birth_date⟩])
      else
        match findOneId (st ++ [⟨genId, user.name, user.email, user.birth_date⟩]) genId with
        | some u =>
          (.created u, st ++ [⟨genId, user.name, user.email, user.birth_date⟩],
            [.findEmail user.email,
             .insert ⟨genId, user.name, user.email, user.birth_date⟩,
             .findId genId])
        | none =>
          (.internalErr, st ++ [⟨genId, user.name, user.email, user.birth_date⟩],
            [.findEmail user.email,
             .insert ⟨genId, user.name, user.email, user.birth_date⟩,
             .findId genId])
  else (.validationErr "name", st, [])

/-- `GET /users/{user_id}` (lines 160–172): id validity check before any
store call, then `find_one` by id, 404 when absent. -/
def get_user (st : Store) (user_id : String) : Resp × Store × List StoreOp :=
  match ObjectId.ofHex user_id with
  | none => (.badRequest "ID inválido", st, [])
  | some oid =>
    match findOneId st oid with
    | none => (.notFound, st, [.findId oid])
    | some u => (.ok u, st, [.findId oid])

/-- `PUT /users/{user_id}` (lines 174–198).  Body validation (FastAPI,
422) precedes the handler; the handler checks id validity, rejects an
empty update, runs `update_one`, answers 404 on `matched_count == 0`,
and otherwise re-fetches (500 if the re-fetch misses). -/
def update_user (st : Store) (user_id : String) (u : UserUpdate) :
    Resp × Store × List StoreOp :=
  if u.valid then
    match ObjectId.ofHex user_id with
    | none => (.badRequest "ID inválido", st, [])
    | some oid =>
      if u.isEmpty then (.badRequest "Nenhum dado para atualizar.", st, [])
      else
        if (updateOne st oid u).1 = 0 then
          (.notFound, (updateOne st oid u).2, [.update oid u])
        else
          match findOneId (updateOne st oid u).2 oid with
          | some usr =>
            (.ok usr, (updateOne st oid u).2, [.update oid u, .findId oid])
          | none =>
            (.internalErr, (updateOne st oid u).2, [.update oid u, .findId oid])
  else (.validationErr "name", st, [])

/-- `DELETE /users/{user_id}` (lines 200–215): id validity check before
any store call, then `delete_one`, 404 on `deleted_count == 0`, else 204. -/
def delete_user (st : Store) (user_id : String) : Resp × Store × List StoreOp :=
  match ObjectId.ofHex user_id with
  | none => (.badRequest "ID inválido", st, [])
  | some oid =>
    if (deleteOne st oid).1 = 0 then (.notFound, (deleteOne st oid).2, [.delete oid])
    else (.noContent, (deleteOne st oid).2, [.delete oid])

/-! ## Operation sequences and reachable states -/

/-- One API mutation, with the nondeterministically generated `_id` of a
create made explicit. -/
inductive Op
  | create (genId : ObjectId) (inp : UserCreate)
  | update (idStr : String) (inp : UserUpdate)
  | del (idStr : String)

/-- Collection state after one operation. -/
def runOp (st : Store) : Op → Store
  | .create g i => (create_user st g i).2.1
  | .update s i => (update_user st s i).2.1
  | .del s => (delete_user st s).2.1

/-- Collection state after a sequence of operations from the empty
collection. -/
def runOps (ops : List Op) : Store :=
  ops.foldl runOp []

/-- No two stored users share an email. -/
def uniqueEmails (st : Store) : Prop :=
  (st.map UserRec.email).Nodup

instance (st : Store) : Decidable (uniqueEmails st) := by
  unfold uniqueEmails; infer_instance

/-! ## Hex encoding lemmas -/

theorem hexDigitVal_hexChar : ∀ n : Fin 16, hexDigitVal (hexChar n.val) = some n.val := by
  decide

theorem hexDigitVal_hexChar_of_lt {n : Nat} (h : n < 16) :
    hexDigitVal (hexChar n) = some n :=
  hexDigitVal_hexChar ⟨n, h⟩

theorem hexChar_not_space : ∀ n : Fin 16, isPySpace (hexChar n.val) = false := by
  decide

theorem hexChar_not_space_of_lt {n : Nat} (h : n < 16) : isPySpace (hexChar n) = false :=
  hexChar_not_space ⟨n, h⟩

/-- A hex digit is never ASCII whitespace, so `bytes.fromhex` never skips
one. -/
theorem hexDigit_not_space {c : Char} (h : (hexDigitVal c).isSome) : isPySpace c = false := by
  by_contra hb
  rw [Bool.not_eq_false] at hb
  have hc : c = ' ' ∨ c = '\t' ∨ c = '\n' ∨ c = '\x0b' ∨ c = '\x0c' ∨ c = '\r' := by
    simpa [isPySpace, or_assoc] using hb
  rcases hc with rfl | rfl | rfl | rfl | rfl | rfl <;> exact absurd h (by decide)

theorem fromhex_bytesToHexChars :
    ∀ bs : List Nat, (∀ b ∈ bs, b < 256) → fromhex (bytesToHexChars bs) = some bs
  | [], _ => rfl
  | b :: bs, h => by
    have hb : b < 256 := h b (by simp)
    have hhi : b / 16 < 16 := Nat.div_lt_of_lt_mul hb
    have hlo : b % 16 < 16 := Nat.mod_lt _ (by omega)
    have ih := fromhex_bytesToHexChars bs (fun x hx => h x (by simp [hx]))
    simp [bytesToHexChars, fromhex, hexChar_not_space_of_lt hhi,
      hexDigitVal_hexChar_of_lt hhi, hexDigitVal_hexChar_of_lt hlo, ih, Nat.div_add_mod]

theorem bytesToHexChars_length : ∀ bs : List Nat, (bytesToHexChars bs).length = 2 * bs.length
  | [] => rfl
  | _ :: bs => by
    simp [bytesToHexChars, bytesToHexChars_length bs]
    omega

theorem ObjectId.toHex_length {o : ObjectId} (h : o.wf) : o.toHex.length = 24 := by
  show (bytesToHexChars o.bytes).length = 24
  rw [bytesToHexChars_length, h.1]

theorem ObjectId.ofHex_toHex {o : ObjectId} (h : o.wf) : ObjectId.ofHex o.toHex = some o := by
  have hdata : o.toHex.data = bytesToHexChars o.bytes := rfl
  unfold ObjectId.ofHex
  rw [if_pos (ObjectId.toHex_length h), hdata,
    fromhex_bytesToHexChars o.bytes h.2, Option.map_some']

/-- The character sequences `bytes.fromhex` accepts: two-hex-digit byte
pairs (digits of either case), with ASCII whitespace allowed before,
between and after the pairs but never splitting a pair. -/
inductive HexPairSeq : List Char → Prop
  | nil : HexPairSeq []
  | ws {c : Char} {cs : List Char} :
      isPySpace c = true → HexPairSeq cs → HexPairSeq (c :: cs)
  | pair {c1 c2 : Char} {cs : List Char} :
      (hexDigitVal c1).isSome = true → (hexDigitVal c2).isSome = true →
      HexPairSeq cs → HexPairSeq (c1 :: c2 :: cs)

/-- `bytes.fromhex` succeeds exactly on the `HexPairSeq` grammar. -/
theorem fromhex_isSome_iff : ∀ cs : List Char, (fromhex cs).isSome ↔ HexPairSeq cs
  | [] => ⟨fun _ => .nil, fun _ => rfl⟩
  | [c] => by
    constructor
    · intro h
      by_cases hs : isPySpace c = true
      · exact .ws hs .nil
      · simp [fromhex, hs] at h
    · intro hp
      cases hp with
      | ws hs _ => simp [fromhex, hs]
  | c1 :: c2 :: cs => by
    have ih1 := fromhex_isSome_iff (c2 :: cs)
    have ih2 := fromhex_isSome_iff cs
    constructor
    · intro h
      by_cases hs : isPySpace c1 = true
      · exact .ws hs (ih1.mp (by simpa [fromhex, hs] using h))
      · rw [fromhex, if_neg hs] at h
        cases h1 : hexDigitVal c1 with
        | none => rw [h1] at h; simp at h
        | some v1 =>
          cases h2 : hexDigitVal c2 with
          | none => rw [h1, h2] at h; simp at h
          | some v2 =>
            cases h3 : fromhex cs with
            | none => rw [h1, h2, h3] at h; simp at h
            | some bs =>
              exact .pair (by rw [h1]; rfl) (by rw [h2]; rfl) (ih2.mp (by rw [h3]; rfl))
    · intro hp
      cases hp with
      | ws hs htail =>
        rw [fromhex, if_pos hs]
        exact ih1.mpr htail
      | pair h1 h2 htail =>
        rw [fromhex, if_neg (by simp [hexDigit_not_space h1])]
        obtain ⟨v1, e1⟩ := Option.isSome_iff_exists.mp h1
        obtain ⟨v2, e2⟩ := Option.isSome_iff_exists.mp h2
        obtain ⟨bs, e3⟩ := Option.isSome_iff_exists.mp (ih2.mpr htail)
        rw [e1, e2, e3]
        rfl

theorem ObjectId.ofHex_isSome_iff (s : String) :
    (ObjectId.ofHex s).isSome ↔ s.length = 24 ∧ HexPairSeq s.data := by
  unfold ObjectId.ofHex
  by_cases hl : s.length = 24
  · rw [if_pos hl]
    constructor
    · intro h
      refine ⟨hl, (fromhex_isSome_iff s.data).mp ?_⟩
      cases he : fromhex s.data with
      | none => rw [he] at h; simp at h
      | some bs => rfl
    · rintro ⟨-, hp⟩
      obtain ⟨bs, e⟩ := Option.isSome_iff_exists.mp ((fromhex_isSome_iff s.data).mpr hp)
      rw [e]
      rfl
  · rw [if_neg hl]
    simp [hl]

/-! ## Collection operation lemmas -/

theorem findOneId_append_fresh (st : Store) (r : UserRec)
    (h : ∀ x ∈ st, x.id ≠ r.id) : findOneId (st ++ [r]) r.id = some r := by
  induction st with
  | nil => simp [findOneId]
  | cons a l ih =>
    have ha : ¬ (a.id = r.id) := h a (by simp)
    rw [List.cons_append]
    show List.find? _ _ = _
    rw [List.find?_cons_of_neg _ (by simpa using ha)]
    exact ih (fun x hx => h x (by simp [hx]))

theorem updateOne_matched_mem : ∀ (st : Store) (oid : ObjectId) (u : UserUpdate),
    (updateOne st oid u).1 ≠ 0 → ∃ r ∈ st, r.id = oid
  | [], _, _, h => absurd rfl h
  | r :: rest, oid, u, h => by
    by_cases hr : r.id = oid
    · exact ⟨r, by simp, hr⟩
    · have hrec : (updateOne rest oid u).1 ≠ 0 := by
        simpa [updateOne, hr] using h
      obtain ⟨x, hx, hid⟩ := updateOne_matched_mem rest oid u hrec
      exact ⟨x, by simp [hx], hid⟩

theorem map_update_id_eq_self (l : Store) (oid : ObjectId) (u : UserUpdate)
    (h : ∀ x ∈ l, x.id ≠ oid) :
    l.map (fun x => if x.id = oid then applyUpdate x u else x) = l := by
  induction l with
  | nil => rfl
  | cons a t ih =>
    rw [List.map_cons, if_neg (h a (by simp)), ih (fun x hx => h x (by simp [hx]))]

theorem updateOne_eq_map : ∀ (st : Store) (oid : ObjectId) (u : UserUpdate),
    (st.map UserRec.id).Nodup →
    (updateOne st oid u).2 = st.map (fun x => if x.id = oid then applyUpdate x u else x)
  | [], _, _, _ => rfl
  | r :: rest, oid, u, h => by
    rw [List.map_cons] at h
    by_cases hr : r.id = oid
    · have hrest : ∀ x ∈ rest, x.id ≠ oid := by
        intro x hx hxo
        apply (List.nodup_cons.mp h).1
        rw [hr, ← hxo]
        exact List.mem_map_of_mem _ hx
      simp only [updateOne, if_pos hr, List.map_cons]
      rw [map_update_id_eq_self rest oid u hrest]
    · have ih := updateOne_eq_map rest oid u (List.nodup_cons.mp h).2
      simp only [updateOne, if_neg hr, List.map_cons]
      rw [ih]

theorem deleteOne_count_zero_iff : ∀ (st : Store) (oid : ObjectId),
    (deleteOne st oid).1 = 0 ↔ ∀ r ∈ st, r.id ≠ oid
  | [], _ => by simp [deleteOne]
  | r :: rest, oid => by
    by_cases hr : r.id = oid
    · simp [deleteOne, hr]
    · simp [deleteOne, hr, deleteOne_count_zero_iff rest oid]

theorem deleteOne_unmatched : ∀ (st : Store) (oid : ObjectId),
    (deleteOne st oid).1 = 0 → (deleteOne st oid).2 = st
  | [], _, _ => rfl
  | r :: rest, oid, h => by
    by_cases hr : r.id = oid
    · simp [deleteOne, hr] at h
    · have hrec : (deleteOne rest oid).1 = 0 := by simpa [deleteOne, hr] using h
      simp only [deleteOne, if_neg hr]
      rw [deleteOne_unmatched rest oid hrec]

theorem deleteOne_removes : ∀ (st : Store) (oid : ObjectId),
    (st.map UserRec.id).Nodup → ∀ r ∈ (deleteOne st oid).2, r.id ≠ oid
  | [], _, _, _, hr => by cases hr
  | r :: rest, oid, h, x, hx => by
    rw [List.map_cons] at h
    by_cases hr : r.id = oid
    · simp only [deleteOne, if_pos hr] at hx
      intro heq
      apply (List.nodup_cons.mp h).1
      rw [hr, ← heq]
      exact List.mem_map_of_mem _ hx
    · simp only [deleteOne, if_neg hr, List.mem_cons] at hx
      rcases hx with rfl | hx'
      · exact hr
      · exact deleteOne_removes rest oid (List.nodup_cons.mp h).2 x hx'

/-- A successful create (valid body, fresh email, fresh generated id):
the new record is appended and returned with 201. -/
theorem create_user_success (st : Store) (g : ObjectId) (inp : UserCreate)
    (hv : inp.valid = true)
    (hid : ∀ r ∈ st, r.id ≠ g)
    (hem : ∀ r ∈ st, r.email ≠ inp.email) :
    create_user st g inp =
      (.created ⟨g, inp.name, inp.email, inp.birth_date⟩,
       st ++ [⟨g, inp.name, inp.email, inp.birth_date⟩],
       [.findEmail inp.email,
        .insert ⟨g, inp.name, inp.email, inp.birth_date⟩,
        .findId g]) := by
  have hfe : findOneEmail st inp.email = none := by
    apply List.find?_eq_none.mpr
    intro x hx
    simpa using hem x hx
  have hany : st.any (fun r => r.id = g) = false := by
    rw [← Bool.not_eq_true, List.any_eq_true]
    rintro ⟨x, hx, hxg⟩
    exact hid x hx (by simpa using hxg)
  have hfind : findOneId (st ++ [⟨g, inp.name, inp.email, inp.birth_date⟩]) g =
      some ⟨g, inp.name, inp.email, inp.birth_date⟩ :=
    findOneId_append_fresh st _ hid
  simp [create_user, hv, hfe, hany, hfind]

/-! ## Concrete sample values for the closed statements -/

/-- 1990-01-15, the spec's own example date. -/
def d0 : Date := ⟨1990, 1, 15⟩

def oidA : ObjectId := ⟨[0, 0, 0, 0, 0, 0, 0, 0, 0, 0, 0, 1]⟩

def oidB : ObjectId := ⟨[0, 0, 0, 0, 0, 0, 0, 0, 0, 0, 0, 2]⟩

/-- The hex string form of `oidB`. -/
def sB : String := "000000000000000000000002"

def recA : UserRec := ⟨oidA, "Ann Lee", "ann@example.com", d0⟩

def recB : UserRec := ⟨oidB, "Bob Roy", "bob@example.com", d0⟩

/-- Reachable three-step sequence: create Ann, create Bob, then update
Bob's email to Ann's email. -/
def c1Ops : List Op :=
  [.create oidA ⟨"Ann Lee", "ann@example.com", d0⟩,
   .create oidB ⟨"Bob Roy", "bob@example.com", d0⟩,
   .update sB ⟨none, some "ann@example.com", none⟩]

/-- C1: the claim (and the source's own field documentation, which calls
`email` the user's unique email) says no reachable store state holds two
users with one email; but `update_user` performs no uniqueness check, so
the three-operation sequence create/create/update reaches a state where
both stored users carry `ann@example.com`. -/
theorem update_breaks_email_uniqueness :
    runOps c1Ops =
      [⟨oidA, "Ann Lee", "ann@example.com", d0⟩,
       ⟨oidB, "Bob Roy", "ann@example.com", d0⟩] ∧
    ¬ uniqueEmails (runOps c1Ops) := by
  decide

/-- C2: a create whose email is already stored fails with the
duplicate-email `HTTPException` (status 400) after only the find-by-email
lookup, and the collection (hence its record count) is unchanged. -/
theorem create_duplicate_email_rejected (st : Store) (g : ObjectId) (inp : UserCreate)
    (hv : inp.valid = true) (hdup : ∃ r ∈ st, r.email = inp.email) :
    create_user st g inp =
      (.badRequest "Já existe um usuário com este e-mail.", st, [.findEmail inp.email]) ∧
    (Resp.badRequest "Já existe um usuário com este e-mail.").status = 400 ∧
    (create_user st g inp).2.1.length = st.length := by
  have hfe : ∃ u, findOneEmail st inp.email = some u := by
    cases hfo : findOneEmail st inp.email with
    | some u => exact ⟨u, rfl⟩
    | none =>
      obtain ⟨r, hr, he⟩ := hdup
      have := List.find?_eq_none.mp hfo r hr
      simp [he] at this
  obtain ⟨u, hu⟩ := hfe
  refine ⟨?_, rfl, ?_⟩
  · simp [create_user, hv, hu]
  · simp [create_user, hv, hu]

/-- Closed instance of the C2 theorem: re-posting Ann's email is refused
and the one-record store stays as it was. -/
theorem create_duplicate_email_rejected_witness :
    (⟨"Bob Roy", "ann@example.com", d0⟩ : UserCreate).valid = true ∧
    (∃ r ∈ [recA], r.email = "ann@example.com") ∧
    create_user [recA] oidB ⟨"Bob Roy", "ann@example.com", d0⟩ =
      (.badRequest "Já existe um usuário com este e-mail.", [recA],
        [.findEmail "ann@example.com"]) :=
  ⟨by decide, by decide,
    (create_duplicate_email_rejected [recA] oidB ⟨"Bob Roy", "ann@example.com", d0⟩
      (by decide) (by decide)).1⟩

/-- C3 fails as stated: the 24-character uppercase-hex string below is not
made of lowercase hex digits (its first letter is not one), yet the code
accepts it as an identifier — get contacts the store (non-empty trace)
and answers 404, not the invalid-id 400. -/
theorem uppercase_id_accepted :
    (∃ c ∈ "60C72B2F9B1D4C001F8E4D6A".data, ¬ ('0' ≤ c ∧ c ≤ '9') ∧ ¬ ('a' ≤ c ∧ c ≤ 'f')) ∧
    (get_user [] "60C72B2F9B1D4C001F8E4D6A").1 ≠ .badRequest "ID inválido" ∧
    (get_user [] "60C72B2F9B1D4C001F8E4D6A").2.2 ≠ [] := by
  decide

/-- C3 (amended): a path identifier is accepted exactly when it has
length 24 and its characters form a sequence of two-hex-digit byte pairs
(digits of either case) with optional ASCII whitespace before, between
and after the pairs — `bytes.fromhex` is case-insensitive and skips such
whitespace, and bson applies no 12-byte check to the decoded result.  On
any other string get/update/delete answer the invalid-id 400 with no
store call and an unchanged collection, and on an accepted identifier
each of the three handlers does contact the store. -/
theorem id_format_case_insensitive (s : String) (st : Store) (u : UserUpdate)
    (hu : u.valid = true) (hne : u.isEmpty = false) :
    ((ObjectId.ofHex s).isSome ↔ s.length = 24 ∧ HexPairSeq s.data) ∧
    (ObjectId.ofHex s = none →
      get_user st s = (.badRequest "ID inválido", st, []) ∧
      update_user st s u = (.badRequest "ID inválido", st, []) ∧
      delete_user st s = (.badRequest "ID inválido", st, []) ∧
      (Resp.badRequest "ID inválido").status = 400) ∧
    (∀ oid, ObjectId.ofHex s = some oid →
      (get_user st s).2.2 ≠ [] ∧ (update_user st s u).2.2 ≠ [] ∧
      (delete_user st s).2.2 ≠ []) := by
  refine ⟨ObjectId.ofHex_isSome_iff s, ?_, ?_⟩
  · intro h
    refine ⟨?_, ?_, ?_, rfl⟩
    · simp [get_user, h]
    · simp [update_user, hu, h]
    · simp [delete_user, h]
  · intro oid h
    refine ⟨?_, ?_, ?_⟩
    · simp only [get_user, h]
      cases findOneId st oid <;> simp
    · simp only [update_user, hu, if_true, h, hne, Bool.false_eq_true, if_false]
      split
      · simp
      · split <;> simp
    · simp only [delete_user, h]
      split <;> simp

/-- Closed instance of the amended C3 theorem: at the malformed
identifier "zz" all three handlers answer the invalid-id 400 with the
collection untouched and no store call, while the 24-character string of
22 hex digits plus two trailing spaces is accepted and get does contact
the store. -/
theorem id_format_case_insensitive_witness :
    get_user [recA] "zz" = (.badRequest "ID inválido", [recA], []) ∧
    update_user [recA] "zz" ⟨some "Bobby", none, none⟩ =
      (.badRequest "ID inválido", [recA], []) ∧
    delete_user [recA] "zz" = (.badRequest "ID inválido", [recA], []) ∧
    (get_user [recA] "0011223344556677889900  ").2.2 ≠ [] :=
  ⟨((id_format_case_insensitive "zz" [recA] ⟨some "Bobby", none, none⟩
      (by decide) (by decide)).2.1 (by decide)).1,
   ((id_format_case_insensitive "zz" [recA] ⟨some "Bobby", none, none⟩
      (by decide) (by decide)).2.1 (by decide)).2.1,
   ((id_format_case_insensitive "zz" [recA] ⟨some "Bobby", none, none⟩
      (by decide) (by decide)).2.1 (by decide)).2.2.1,
   ((id_format_case_insensitive "0011223344556677889900  " [recA]
      ⟨some "Bobby", none, none⟩ (by decide) (by decide)).2.2
      ⟨[0, 17, 34, 51, 68, 85, 102, 119, 136, 153, 0]⟩ (by decide)).1⟩

/-- Modelled from the spec: the "trimmed length" of a name (spec §4.2,
"name: trimmed length 3–50") — the character count after removing leading
and trailing spaces.  Stated only to compare the spec's rule with the
source's untrimmed `min_length`/`max_length` check; the source never
trims. -/
def trimmedLength (s : String) : Nat :=
  (((s.data.dropWhile (fun c => c = ' ')).reverse.dropWhile (fun c => c = ' ')).reverse).length

/-- C4 fails as stated: pydantic's `min_length`/`max_length` check the raw
character count with no trimming, and a body-validation failure is
answered 422, not 400.  The name "  a " (raw length 4, trimmed length 1)
is accepted by create. -/
theorem untrimmed_name_accepted :
    trimmedLength "  a " = 1 ∧ ¬ 3 ≤ trimmedLength "  a " ∧
    (create_user [] oidA ⟨"  a ", "ann@example.com", d0⟩).1 =
      .created ⟨oidA, "  a ", "ann@example.com", d0⟩ ∧
    (Resp.validationErr "name").status ≠ 400 := by
  decide

/-- C4 (amended): the name field is accepted exactly when its raw
(untrimmed) length lies in [3, 50]; a violation is rejected by the
pydantic body gate with a name validation error (HTTP 422) before any
store access — unchanged collection, empty trace. -/
theorem name_length_validation (n e : String) (d : Date) (st : Store) (g : ObjectId)
    (s : String) (eo : Option String) (bo : Option Date) :
    (¬ (3 ≤ n.length ∧ n.length ≤ 50) →
      create_user st g ⟨n, e, d⟩ = (.validationErr "name", st, []) ∧
      update_user st s ⟨some n, eo, bo⟩ = (.validationErr "name", st, []) ∧
      (Resp.validationErr "name").status = 422) ∧
    ((3 ≤ n.length ∧ n.length ≤ 50) →
      (create_user st g ⟨n, e, d⟩).1 ≠ .validationErr "name" ∧
      (update_user st s ⟨some n, eo, bo⟩).1 ≠ .validationErr "name") := by
  constructor
  · intro h
    have hv : validName n = false := by
      rw [validName]
      by_contra hb
      rw [Bool.not_eq_false, Bool.and_eq_true, decide_eq_true_eq, decide_eq_true_eq] at hb
      exact h hb
    refine ⟨?_, ?_, rfl⟩
    · simp [create_user, UserCreate.valid, hv]
    · simp [update_user, UserUpdate.valid, hv]
  · intro h
    have hv : validName n = true := by
      rw [validName, Bool.and_eq_true, decide_eq_true_eq, decide_eq_true_eq]
      exact h
    constructor
    · simp only [create_user, UserCreate.valid, hv, if_true]
      split
      · simp
      · split
        · simp
        · split <;> simp
    · simp only [update_user, UserUpdate.valid, hv, if_true]
      split
      · simp
      · split
        · simp
        · split
          · simp
          · split <;> simp

/-- Closed instance of the amended C4 theorem at the two-character name
"Jo": both create and update reject it before any store access. -/
theorem name_length_validation_witness :
    ¬ (3 ≤ ("Jo" : String).length ∧ ("Jo" : String).length ≤ 50) ∧
    create_user [recA] oidB ⟨"Jo", "jo@example.com", d0⟩ =
      (.validationErr "name", [recA], []) ∧
    update_user [recA] sB ⟨some "Jo", none, none⟩ =
      (.validationErr "name", [recA], []) :=
  ⟨by decide,
   ((name_length_validation "Jo" "jo@example.com" d0 [recA] oidB sB none none).1
      (by decide)).1,
   ((name_length_validation "Jo" "jo@example.com" d0 [recA] oidB sB none none).1
      (by decide)).2.1⟩

/-- C5: a successful update (200) touches exactly the record whose id was
addressed — the collection afterwards is the pointwise image that rewrites
only that record, every absent field of it keeps its stored value, and
every other record is still present unchanged. -/
theorem update_frame (st st' : Store) (s : String) (u : UserUpdate) (outRec : UserRec)
    (tr : List StoreOp)
    (hids : (st.map UserRec.id).Nodup)
    (h : update_user st s u = (.ok outRec, st', tr)) :
    ∃ oid r, ObjectId.ofHex s = some oid ∧ r ∈ st ∧ r.id = oid ∧
      st' = st.map (fun x => if x.id = oid then applyUpdate x u else x) ∧
      (u.name = none → (applyUpdate r u).name = r.name) ∧
      (u.email = none → (applyUpdate r u).email = r.email) ∧
      (u.birth_date = none → (applyUpdate r u).birth_date = r.birth_date) ∧
      (∀ x ∈ st, x.id ≠ oid → x ∈ st') := by
  rw [update_user] at h
  by_cases hv : u.valid = true
  case neg => rw [if_neg hv] at h; simp at h
  rw [if_pos hv] at h
  split at h
  · simp at h
  · rename_i oid ho
    split at h
    · simp at h
    · split at h
      · simp at h
      · rename_i hm
        split at h
        · rename_i usr hf
          injection h with h1 h2
          injection h2 with h2 h3
          obtain ⟨r, hr, hrid⟩ := updateOne_matched_mem st oid u hm
          have hst' : st' = st.map (fun x => if x.id = oid then applyUpdate x u else x) := by
            rw [← h2, updateOne_eq_map st oid u hids]
          refine ⟨oid, r, ho, hr, hrid, hst', ?_, ?_, ?_, ?_⟩
          · intro hn; simp [applyUpdate, hn]
          · intro hn; simp [applyUpdate, hn]
          · intro hn; simp [applyUpdate, hn]
          · intro x hx hxid
            rw [hst']
            have hfix : (fun y : UserRec => if y.id = oid then applyUpdate y u else y) x = x :=
              if_neg hxid
            rw [← hfix]
            exact List.mem_map_of_mem _ hx
        · simp at h

/-- Closed instance of the C5 theorem: updating only Bob's email leaves
Ann's record and Bob's other fields exactly as stored. -/
theorem update_frame_witness :
    (([recA, recB] : Store).map UserRec.id).Nodup ∧
    update_user [recA, recB] sB ⟨none, some "bob2@example.com", none⟩ =
      (.ok ⟨oidB, "Bob Roy", "bob2@example.com", d0⟩,
       [recA, ⟨oidB, "Bob Roy", "bob2@example.com", d0⟩],
       [.update oidB ⟨none, some "bob2@example.com", none⟩, .findId oidB]) ∧
    (∃ oid r, ObjectId.ofHex sB = some oid ∧ r ∈ ([recA, recB] : Store) ∧ r.id = oid ∧
      [recA, ⟨oidB, "Bob Roy", "bob2@example.com", d0⟩] =
        ([recA, recB] : Store).map
          (fun x => if x.id = oid then applyUpdate x ⟨none, some "bob2@example.com", none⟩ else x) ∧
      ((⟨none, some "bob2@example.com", none⟩ : UserUpdate).name = none →
        (applyUpdate r ⟨none, some "bob2@example.com", none⟩).name = r.name) ∧
      ((⟨none, some "bob2@example.com", none⟩ : UserUpdate).email = none →
        (applyUpdate r ⟨none, some "bob2@example.com", none⟩).email = r.email) ∧
      ((⟨none, some "bob2@example.com", none⟩ : UserUpdate).birth_date = none →
        (applyUpdate r ⟨none, some "bob2@example.com", none⟩).birth_date = r.birth_date) ∧
      (∀ x ∈ ([recA, recB] : Store), x.id ≠ oid →
        x ∈ [recA, ⟨oidB, "Bob Roy", "bob2@example.com", d0⟩])) :=
  ⟨by decide, by decide,
   update_frame [recA, recB] [recA, ⟨oidB, "Bob Roy", "bob2@example.com", d0⟩] sB
     ⟨none, some "bob2@example.com", none⟩ ⟨oidB, "Bob Roy", "bob2@example.com", d0⟩
     [.update oidB ⟨none, some "bob2@example.com", none⟩, .findId oidB]
     (by decide) (by decide)⟩

/-- C6: after a successful create (valid body, fresh email, well-formed
fresh generated id), getting the returned id's string form immediately
yields the very record create returned, and its name, email and
birth_date equal the input's. -/
theorem create_then_get_roundtrip (st : Store) (g : ObjectId) (inp : UserCreate)
    (hv : inp.valid = true) (hwf : g.wf)
    (hid : ∀ r ∈ st, r.id ≠ g) (hem : ∀ r ∈ st, r.email ≠ inp.email) :
    ∃ u : UserRec,
      (create_user st g inp).1 = .created u ∧
      (get_user (create_user st g inp).2.1 u.id.toHex).1 = .ok u ∧
      u.name = inp.name ∧ u.email = inp.email ∧ u.birth_date = inp.birth_date := by
  have hc := create_user_success st g inp hv hid hem
  have hfind : findOneId (st ++ [⟨g, inp.name, inp.email, inp.birth_date⟩]) g =
      some ⟨g, inp.name, inp.email, inp.birth_date⟩ :=
    findOneId_append_fresh st _ hid
  refine ⟨⟨g, inp.name, inp.email, inp.birth_date⟩, by rw [hc], ?_, rfl, rfl, rfl⟩
  rw [hc]
  simp [get_user, ObjectId.ofHex_toHex hwf, hfind]

/-- Closed instance of the C6 theorem: create Ann into the empty store,
then get her by the returned id. -/
theorem create_then_get_roundtrip_witness :
    (⟨"Ann Lee", "ann@example.com", d0⟩ : UserCreate).valid = true ∧ oidA.wf ∧
    (∃ u : UserRec,
      (create_user [] oidA ⟨"Ann Lee", "ann@example.com", d0⟩).1 = .created u ∧
      (get_user (create_user [] oidA ⟨"Ann Lee", "ann@example.com", d0⟩).2.1
        u.id.toHex).1 = .ok u ∧
      u.name = "Ann Lee" ∧ u.email = "ann@example.com" ∧ u.birth_date = d0) :=
  ⟨by decide, by decide,
   create_then_get_roundtrip [] oidA ⟨"Ann Lee", "ann@example.com", d0⟩
     (by decide) (by decide) (by decide) (by decide)⟩

/-- C7: a create with a valid body, fresh email and well-formed fresh
generated id succeeds with 201, and the returned record's id string is 24
characters that parse back (`ObjectId(...)`) and re-encode (`str(...)`) to
the identical string. -/
theorem create_id_string_roundtrip (st : Store) (g : ObjectId) (inp : UserCreate)
    (hv : inp.valid = true) (hwf : g.wf)
    (hid : ∀ r ∈ st, r.id ≠ g) (hem : ∀ r ∈ st, r.email ≠ inp.email) :
    ∃ u st' tr, create_user st g inp = (.created u, st', tr) ∧
      (Resp.created u).status = 201 ∧
      u.id.toHex.length = 24 ∧
      (ObjectId.ofHex u.id.toHex).map ObjectId.toHex = some u.id.toHex := by
  have hc := create_user_success st g inp hv hid hem
  refine ⟨_, _, _, hc, rfl, ObjectId.toHex_length hwf, ?_⟩
  simp [ObjectId.ofHex_toHex hwf]

/-- Closed instance of the C7 theorem: create Bob into Ann's store. -/
theorem create_id_string_roundtrip_witness :
    (⟨"Bob Roy", "bob@example.com", d0⟩ : UserCreate).valid = true ∧ oidB.wf ∧
    (∃ u st' tr,
      create_user [recA] oidB ⟨"Bob Roy", "bob@example.com", d0⟩ = (.created u, st', tr) ∧
      (Resp.created u).status = 201 ∧
      u.id.toHex.length = 24 ∧
      (ObjectId.ofHex u.id.toHex).map ObjectId.toHex = some u.id.toHex) :=
  ⟨by decide, by decide,
   create_id_string_roundtrip [recA] oidB ⟨"Bob Roy", "bob@example.com", d0⟩
     (by decide) (by decide) (by decide) (by decide)⟩

/-- C8: an update whose body has zero present fields and whose path id is
well-formed fails with the empty-update 400 before any store call: the
collection is identical and the trace empty. -/
theorem empty_update_rejected (st : Store) (s : String) (u : UserUpdate)
    (hok : (ObjectId.ofHex s).isSome) (hemp : u.isEmpty = true) :
    update_user st s u = (.badRequest "Nenhum dado para atualizar.", st, []) ∧
    (Resp.badRequest "Nenhum dado para atualizar.").status = 400 := by
  have hn : u.name = none := by
    simp only [UserUpdate.isEmpty, Bool.and_eq_true, Option.isNone_iff_eq_none] at hemp
    exact hemp.1.1
  have hval : u.valid = true := by
    simp [UserUpdate.valid, hn]
  obtain ⟨oid, ho⟩ := Option.isSome_iff_exists.mp hok
  refine ⟨?_, rfl⟩
  simp [update_user, hval, ho, hemp]

/-- Closed instance of the C8 theorem: an all-absent update body aimed at
Bob's id changes nothing. -/
theorem empty_update_rejected_witness :
    (ObjectId.ofHex sB).isSome ∧ (⟨none, none, none⟩ : UserUpdate).isEmpty = true ∧
    update_user [recB] sB ⟨none, none, none⟩ =
      (.badRequest "Nenhum dado para atualizar.", [recB], []) :=
  ⟨by decide, by decide,
   (empty_update_rejected [recB] sB ⟨none, none, none⟩ (by decide) (by decide)).1⟩

/-- C9: with a well-formed id over a duplicate-free collection, deleting
twice in a row always answers 404 on the second call, and deleting an id
that is not stored answers 404. -/
theorem delete_idempotent_notfound (st : Store) (s : String)
    (hids : (st.map UserRec.id).Nodup) (hok : (ObjectId.ofHex s).isSome) :
    (delete_user (delete_user st s).2.1 s).1 = .notFound ∧
    Resp.notFound.status = 404 ∧
    (∀ oid, ObjectId.ofHex s = some oid → (∀ r ∈ st, r.id ≠ oid) →
      (delete_user st s).1 = .notFound) := by
  obtain ⟨oid, ho⟩ := Option.isSome_iff_exists.mp hok
  have hstep : ∀ st1 : Store, (∀ r ∈ st1, r.id ≠ oid) → (delete_user st1 s).1 = .notFound := by
    intro st1 h1
    have hz : (deleteOne st1 oid).1 = 0 := (deleteOne_count_zero_iff st1 oid).mpr h1
    simp [delete_user, ho, hz]
  refine ⟨?_, rfl, ?_⟩
  · have hrem := deleteOne_removes st oid hids
    have hst1 : ∀ r ∈ (delete_user st s).2.1, r.id ≠ oid := by
      by_cases hm : (deleteOne st oid).1 = 0
      · simp only [delete_user, ho, if_pos hm]
        exact hrem
      · simp only [delete_user, ho, if_neg hm]
        exact hrem
    exact hstep _ hst1
  · intro oid' ho' habs
    rw [ho] at ho'
    injection ho' with he
    subst he
    exact hstep st habs

/-- Closed instance of the C9 theorem: delete Bob twice; the second call
is 404, and so is deleting an id the store never held. -/
theorem delete_idempotent_notfound_witness :
    (([recB] : Store).map UserRec.id).Nodup ∧ (ObjectId.ofHex sB).isSome ∧
    (delete_user (delete_user [recB] sB).2.1 sB).1 = .notFound :=
  ⟨by decide, by decide,
   (delete_idempotent_notfound [recB] sB (by decide) (by decide)).1⟩

/-! ## The create handler against an arbitrary store (claim C10)

Against the sequential in-memory collection the re-fetch after a
successful insert always finds the inserted record, so the branch at line
144 (`raise HTTPException(status_code=500, ...)`) is unreachable there; it
arises when another request removes the record between the two calls.
`createProto` is the same handler body (lines 132–144) with the store's
two read responses as explicit parameters, so that branch is statable. -/

/-- The create handler body with the duplicate-email lookup response and
the post-insert re-fetch response as parameters, together with the trace
of store calls it issues.  When the email lookup finds nothing, the
handler inserts and re-fetches; a `None` re-fetch yields the 500 response
with no further store call. -/
def createProto (inp : UserCreate) (genId : ObjectId)
    (emailResp : Option UserRec) (refetchResp : Option UserRec) :
    Resp × List StoreOp :=
  match emailResp with
  | some _ => (.badRequest "Já existe um usuário com este e-mail.", [.findEmail inp.email])
  | none =>
    match refetchResp with
    | some u =>
      (.created u,
        [.findEmail inp.email,
         .insert ⟨genId, inp.name, inp.email, inp.birth_date⟩,
         .findId genId])
    | none =>
      (.internalErr,
        [.findEmail inp.email,
         .insert ⟨genId, inp.name, inp.email, inp.birth_date⟩,
         .findId genId])

/-- Effect of a trace of store operations on a collection: reads change
nothing, `insert_one` appends, `update_one`/`delete_one` act on the first
match. -/
def applyOp (st : Store) : StoreOp → Store
  | .findEmail _ => st
  | .findId _ => st
  | .insert r => st ++ [r]
  | .update oid u => (updateOne st oid u).2
  | .delete oid => (deleteOne st oid).2

def applyOps (st : Store) (ops : List StoreOp) : Store :=
  ops.foldl applyOp st

/-- C10: when the duplicate-email lookup finds nothing and the re-fetch
after the insert returns None, create answers HTTP 500; its trace shows
the insert was issued and no compensating delete follows it, so applying
the trace to any collection leaves the inserted record appended — the
error path does not roll the insert back. -/
theorem create_refetch_miss_no_rollback (inp : UserCreate) (g : ObjectId) (st : Store) :
    (createProto inp g none none).1 = .internalErr ∧
    (createProto inp g none none).1.status = 500 ∧
    (createProto inp g none none).2 =
      [.findEmail inp.email, .insert ⟨g, inp.name, inp.email, inp.birth_date⟩, .findId g] ∧
    applyOps st (createProto inp g none none).2 =
      st ++ [⟨g, inp.name, inp.email, inp.birth_date⟩] ∧
    ∀ oid, StoreOp.delete oid ∉ (createProto inp g none none).2 := by
  refine ⟨rfl, rfl, rfl, rfl, ?_⟩
  intro oid hmem
  simp [createProto] at hmem

end MongoUserAPI
